import Mathlib

/-!
# Yellowknife coffee inventory system — shallow embedding

A shallow embedding of the bean-consumption and cost-allocation core of the
Yellowknife coffee management application (`src/app.py`, schema in
`src/create_turso_schema.py`), together with proofs and refutations of the
stated properties of that core.

Modelling conventions:
* SQL `DATE` columns hold ISO `YYYY-MM-DD` text and every comparison in the
  source is the lexicographic text comparison, which on this format agrees with
  numeric order of the digit string.  Dates are therefore embedded as `Nat`
  in `YYYYMMDD` form (months as `YYYYMM`), preserving every comparison the
  source performs, including the report's synthetic month-end bound `"-31"`.
* `REAL` quantities and prices are embedded as `ℚ`; Python's `round(x, 3)`
  is embedded as exact rounding of a rational to a multiple of `1/1000`
  with ties to even, matching the documented behaviour of `round`.
* Tables are embedded as lists of rows in insertion order; `AUTOINCREMENT`
  ids are provided by explicit counters on the database state.
* A Python exception is embedded as `Except.error` carrying the exception
  name; code that cannot raise returns plain values.
-/

namespace Yellowknife

/-- Calendar dates `YYYY-MM-DD`, embedded as the number `YYYYMMDD`
(order-isomorphic to the lexicographic order SQLite uses on the text form). -/
abbrev Date := Nat

/-- `ROASTING_LOSS_RATE = 1.2` (src/app.py:12): producing 1 kg of roasted
product consumes 1.2 kg of green bean. -/
def ROASTING_LOSS_RATE : ℚ := 12 / 10

/-- Round a rational to the nearest integer, ties to even: the rounding rule
of Python's built-in `round` on an exactly represented value. -/
def roundHalfEven (q : ℚ) : ℤ :=
  if q - ⌊q⌋ < 1/2 then ⌊q⌋
  else if 1/2 < q - ⌊q⌋ then ⌊q⌋ + 1
  else if ⌊q⌋ % 2 = 0 then ⌊q⌋ else ⌊q⌋ + 1

/-- Python's `round(x, 3)` on an exact rational: round to a multiple of
`1/1000`, ties to even. -/
def round3 (q : ℚ) : ℚ := (roundHalfEven (q * 1000) : ℚ) / 1000

/-- A row of `green_bean_purchases` (schema: src/create_turso_schema.py:34). -/
structure PurchaseRow where
  id : Nat
  purchase_date : Date
  origin : String
  product_name : String
  quantity_kg : ℚ
  unit_price : ℚ
  total_amount : ℚ
  supplier : String
deriving DecidableEq

/-- A row of `green_bean_inventory` (schema: src/create_turso_schema.py:49);
`(bean_origin, bean_product)` is UNIQUE. -/
structure InventoryRow where
  bean_origin : String
  bean_product : String
  current_stock_kg : ℚ
deriving DecidableEq

/-- A row of `product_sales` (schema: src/create_turso_schema.py:74). -/
structure SaleRecord where
  id : Nat
  sale_date : Date
  product_name : String
  quantity_kg : ℚ
  unit_price : ℚ
  total_amount : ℚ
  customer : String
deriving DecidableEq

/-- A row of the legacy `blend_recipes` table (schema:
src/create_turso_schema.py:61); `effective_date` is nullable. -/
structure BlendRecipeRow where
  product_name : String
  green_bean_origin : String
  green_bean_product : String
  blend_ratio : ℚ
  effective_date : Option Date
deriving DecidableEq

/-- A row of `products` (schema: src/create_turso_schema.py:143). -/
structure ProductRow where
  id : Nat
  product_name : String
  master_bom_id : Option Nat
  is_active : Bool
deriving DecidableEq

/-- A row of `product_bom_history` (schema: src/create_turso_schema.py:157);
`master_bom_id` is nullable. -/
structure BomHistoryRow where
  product_id : Nat
  master_bom_id : Option Nat
  effective_date : Date
deriving DecidableEq

/-- A row of `master_bom_recipes` (schema: src/create_turso_schema.py:130). -/
structure MasterBomRecipeRow where
  master_bom_id : Nat
  green_bean_origin : String
  green_bean_product : String
  blend_ratio : ℚ
deriving DecidableEq

/-- A row of `inventory_transactions` (schema: src/create_turso_schema.py:101):
the append-only stock ledger. -/
structure TransactionRow where
  transaction_date : Date
  transaction_type : String
  item_type : String
  bean_origin : String
  bean_product : String
  quantity_kg : ℚ
  reference_id : Option Nat
  notes : String
deriving DecidableEq

/-- A row of `variable_costs` (schema: src/create_turso_schema.py:88): the
period key is the `(year, month)` pair; there is no `effective_month` column. -/
structure VariableCostRow where
  year : Nat
  month : Nat
  cost_per_kg : ℚ
deriving DecidableEq

/-- The database state: the tables touched by the core, with explicit
`AUTOINCREMENT` counters for the two tables whose generated ids the code
reads back. -/
structure DB where
  green_bean_purchases : List PurchaseRow
  green_bean_inventory : List InventoryRow
  product_sales : List SaleRecord
  blend_recipes : List BlendRecipeRow
  products : List ProductRow
  product_bom_history : List BomHistoryRow
  master_bom_recipes : List MasterBomRecipeRow
  inventory_transactions : List TransactionRow
  variable_costs : List VariableCostRow
  next_purchase_id : Nat
  next_sale_id : Nat
deriving DecidableEq

/-- The freshly created database: every table empty. -/
def emptyDB : DB :=
  ⟨[], [], [], [], [], [], [], [], [], 1, 1⟩

/-- `update_green_bean_inventory` (src/app.py:244-273): if an inventory row
for `(origin, product)` exists, add `quantity_change` to it, otherwise insert
a new row whose stock is `quantity_change`. -/
def update_green_bean_inventory (origin product : String) (quantity_change : ℚ)
    (inv : List InventoryRow) : List InventoryRow :=
  if inv.any (fun r => r.bean_origin == origin && r.bean_product == product) then
    inv.map (fun r =>
      if r.bean_origin == origin && r.bean_product == product then
        { r with current_stock_kg := r.current_stock_kg + quantity_change }
      else r)
  else
    inv ++ [⟨origin, product, quantity_change⟩]

/-- `add_inventory_transaction` (src/app.py:275-288): append one row to the
`inventory_transactions` ledger. -/
def add_inventory_transaction (transaction_date : Date) (transaction_type item_type : String)
    (origin product : String) (quantity_kg : ℚ) (reference_id : Option Nat) (notes : String)
    (txs : List TransactionRow) : List TransactionRow :=
  txs ++ [⟨transaction_date, transaction_type, item_type, origin, product,
           quantity_kg, reference_id, notes⟩]

/-- `get_bean_stock` (src/app.py:290-302): the stock of the bean's inventory
row, `0` when no row exists. -/
def get_bean_stock (inv : List InventoryRow) (origin product : String) : ℚ :=
  match inv.find? (fun r => r.bean_origin == origin && r.bean_product == product) with
  | some r => r.current_stock_kg
  | none => 0

/-- `get_bean_full_name` (src/app.py:240-242). -/
def get_bean_full_name (origin product : String) : String :=
  if product != "" then origin ++ " - " ++ product else origin

/-- The sum of the ledger deltas (`quantity_kg`) of one bean variety over the
whole `inventory_transactions` table — the right-hand side of the ledger
invariant. -/
def tx_sum (txs : List TransactionRow) (origin product : String) : ℚ :=
  ((txs.filter (fun t => t.bean_origin == origin && t.bean_product == product)).map
    (fun t => t.quantity_kg)).sum

/-- A `(green_bean_origin, green_bean_product, blend_ratio)` triple as returned
by the recipe resolver. -/
abbrev RecipeLine := String × String × ℚ

/-- How the resolved recipe was obtained (`'new_system'`, `'old_system'`,
`'none'` in src/app.py:377/406/408). -/
inductive BomSource
  | new_system
  | old_system
  | no_recipe
deriving DecidableEq

/-- `ORDER BY effective_date DESC LIMIT 1` over `product_bom_history`
(src/app.py:351-355): the row with the maximal effective date (the first row
of the sort wins a tie, hence `<` below keeps the earlier row). -/
def latest_history (rows : List BomHistoryRow) : Option BomHistoryRow :=
  rows.foldl (fun acc r =>
    match acc with
    | none => some r
    | some a => if a.effective_date < r.effective_date then some r else acc) none

/-- Null-last descending order on nullable dates: the key of the first row of
`ORDER BY effective_date DESC` (SQLite sorts NULLs last in DESC).  This fold
computes the maximal key of a list of legacy recipe rows: `some` of the
largest non-null date when one exists, `none` otherwise. -/
def latest_effective_date (rows : List BlendRecipeRow) : Option Date :=
  rows.foldl (fun acc r =>
    match acc, r.effective_date with
    | none, d => d
    | some a, some b => some (max a b)
    | some a, none => some a) none

/-- The batch of legacy recipe rows sharing the latest effective date: the
Python `[r for r in all_recipes if r[3] == latest_effective_date]`
(src/app.py:405, and likewise :1831/:1862/:1916).  Python `==` on
`None`/date values is exactly equality of the `Option Date`. -/
def latest_batch (rows : List BlendRecipeRow) : List BlendRecipeRow :=
  rows.filter (fun r => r.effective_date == latest_effective_date rows)

/-- The dated legacy recipe query
`SELECT ... FROM blend_recipes WHERE product_name = ? AND
(effective_date IS NULL OR effective_date <= ?)` used by the sale edit and
delete handlers (src/app.py:1822-1828, 1853-1859, 1907-1913). -/
def legacy_recipe_rows (recipes : List BlendRecipeRow) (product_name : String)
    (cutoff : Date) : List BlendRecipeRow :=
  recipes.filter (fun r =>
    r.product_name == product_name &&
      (match r.effective_date with
       | none => true
       | some e => decide (e ≤ cutoff)))

/-- The legacy half of `get_product_bom`: the fall-through to the flat
`blend_recipes` table (src/app.py:379-408).  When `sale_date` is supplied the
date-restricted query (src/app.py:381-387) is executed but never fetched:
`all_recipes` is assigned only inside the `else` branch (src/app.py:395-399),
so the read at src/app.py:402 raises `UnboundLocalError`. -/
def get_product_bom_legacy (db : DB) (product_name : String) (sale_date : Option Date) :
    Except String (List RecipeLine × BomSource) :=
  match sale_date with
  | some _ => Except.error "UnboundLocalError: all_recipes"
  | none =>
    let all_recipes := db.blend_recipes.filter (fun r => r.product_name == product_name)
    if all_recipes.isEmpty then Except.ok ([], BomSource.no_recipe)
    else
      Except.ok
        ((latest_batch all_recipes).map
          (fun r => (r.green_bean_origin, r.green_bean_product, r.blend_ratio)),
         BomSource.old_system)

/-- `get_product_bom` (src/app.py:324-408), translated statement by statement.
In the new-system half, the date-restricted history query (src/app.py:343-348)
is executed but its result is never fetched: `bom_result` is assigned only
inside the `else` branch that runs when `sale_date` is falsy
(src/app.py:357-361), so with a date supplied the read at src/app.py:363
raises `UnboundLocalError`, embedded as `Except.error`. -/
def get_product_bom (db : DB) (product_name : String) (sale_date : Option Date) :
    Except String (List RecipeLine × BomSource) :=
  match db.products.find? (fun p => p.product_name == product_name && p.is_active) with
  | some product_result =>
    match sale_date with
    | some _ => Except.error "UnboundLocalError: bom_result"
    | none =>
      match latest_history (db.product_bom_history.filter
          (fun h => h.product_id == product_result.id)) with
      | some bom_result =>
        match bom_result.master_bom_id with
        | some master_bom_id =>
          Except.ok
            (((db.master_bom_recipes.filter (fun r => r.master_bom_id == master_bom_id)).map
                (fun r => (r.green_bean_origin, r.green_bean_product, r.blend_ratio))),
             BomSource.new_system)
        | none => get_product_bom_legacy db product_name sale_date
      | none => get_product_bom_legacy db product_name sale_date
  | none => get_product_bom_legacy db product_name sale_date

/-- `green_bean_needed = round(quantity * ROASTING_LOSS_RATE, 3)`: the green
bean required for `quantity` kg of finished product, as computed at every
sale-side consumption site (src/app.py:1195, 1833, 1864, 1918). -/
def green_bean_needed_for (quantity : ℚ) : ℚ :=
  round3 (quantity * ROASTING_LOSS_RATE)

/-- `required = round(green_bean_needed * (ratio / 100), 3)`: the green bean a
single recipe line consumes (src/app.py:1199/1213, 1836, 1867, 1921). -/
def required_qty (green_bean_needed blend_ratio : ℚ) : ℚ :=
  round3 (green_bean_needed * (blend_ratio / 100))

/-- One warning surfaced by the sale upload handler.  The handler renders
these as text; the embedding keeps the structured content (product, required
and available quantity per insufficient bean, exception text for a failed
row). -/
inductive Warning
  | no_recipe (product : String)
  | shortage (product : String) (quantity : ℚ) (beans : List (String × ℚ × ℚ))
  | row_error (msg : String)
deriving DecidableEq

/-- One parsed row of the sales spreadsheet fed to the upload handler
(src/app.py:1168-1186): date, product, quantity and the VAT-inclusive unit
price. -/
structure SaleUploadRow where
  sale_date : Date
  product : String
  quantity : ℚ
  unit_price_with_vat : ℚ
  customer : String
deriving DecidableEq

/-- Outcome of processing one upload row: the database afterwards, whether the
row counted as a success, and the warnings produced for it. -/
structure RowOutcome where
  db : DB
  success : Bool
  warnings : List Warning
deriving DecidableEq

/-- Append the sale record itself (src/app.py:1222-1226). -/
def insert_sale (db : DB) (sale_date : Date) (product : String)
    (quantity unit_price total : ℚ) (customer : String) : DB :=
  { db with
    product_sales := db.product_sales ++
      [⟨db.next_sale_id, sale_date, product, quantity, unit_price, total, customer⟩],
    next_sale_id := db.next_sale_id + 1 }

/-- The body of the per-row sale upload loop (src/app.py:1168-1232), one row at
a time.  The row sits in a `try`/`except` (src/app.py:1169/1230): any
exception makes the row an error (`success := false`), leaves the database
untouched and records the exception text.  Since the recipe lookup
`get_product_bom(product, sale_date)` is the first database operation and the
exception, when one occurs, occurs there, no partial mutation can escape. -/
def process_sale_row (db : DB) (row : SaleUploadRow) : RowOutcome :=
  let unit_price := row.unit_price_with_vat / (11/10)
  let total := row.quantity * unit_price
  match get_product_bom db row.product (some row.sale_date) with
  | Except.error e => ⟨db, false, [Warning.row_error e]⟩
  | Except.ok (recipe, _) =>
    if recipe.isEmpty then
      ⟨insert_sale db row.sale_date row.product row.quantity unit_price total row.customer,
       true, [Warning.no_recipe row.product]⟩
    else
      let green_bean_needed := green_bean_needed_for row.quantity
      let insufficient := (recipe.filter (fun l =>
          decide (get_bean_stock db.green_bean_inventory l.1 l.2.1 <
            required_qty green_bean_needed l.2.2))).map
        (fun l => (get_bean_full_name l.1 l.2.1,
                   required_qty green_bean_needed l.2.2,
                   get_bean_stock db.green_bean_inventory l.1 l.2.1))
      if insufficient.isEmpty then
        let db' := recipe.foldl (fun d l =>
          let q := required_qty green_bean_needed l.2.2
          { d with
            green_bean_inventory :=
              update_green_bean_inventory l.1 l.2.1 (-q) d.green_bean_inventory,
            inventory_transactions :=
              add_inventory_transaction row.sale_date "sale" "green_bean" l.1 l.2.1 (-q)
                none ("판매 차감 - " ++ row.product) d.inventory_transactions }) db
        ⟨insert_sale db' row.sale_date row.product row.quantity unit_price total row.customer,
         true, []⟩
      else
        ⟨insert_sale db row.sale_date row.product row.quantity unit_price total row.customer,
         true, [Warning.shortage row.product row.quantity insufficient]⟩

/-- Purchase registration (`btn_purchase`, src/app.py:627-655): validate the
form, insert the purchase with `total = quantity * unit_price`, add the
quantity to the bean's stock and append a `'bean_purchase'` ledger row
referencing the new purchase id. -/
def purchase_create (db : DB) (purchase_date : Date) (origin product : String)
    (quantity unit_price : ℚ) (supplier : String) : DB :=
  if origin != "" && product != "" && decide (0 < quantity) && decide (0 < unit_price) then
    let total := quantity * unit_price
    let purchase_id := db.next_purchase_id
    { db with
      green_bean_purchases := db.green_bean_purchases ++
        [⟨purchase_id, purchase_date, origin, product, quantity, unit_price, total, supplier⟩],
      next_purchase_id := purchase_id + 1,
      green_bean_inventory :=
        update_green_bean_inventory origin product quantity db.green_bean_inventory,
      inventory_transactions :=
        add_inventory_transaction purchase_date "bean_purchase" "green_bean" origin product
          quantity (some purchase_id) ("매입 - " ++ supplier) db.inventory_transactions }
  else db

/-- Purchase edit (`purchase_edit_btn`, src/app.py:1430-1448, duplicated at
:2521-2539): after the form validation it issues a single
`UPDATE green_bean_purchases` rewriting the selected row (with
`total = quantity * unit_price`) and nothing else — no inventory update, no
ledger row. -/
def purchase_edit (db : DB) (id : Nat) (new_date : Date) (new_origin new_product : String)
    (new_quantity new_unit_price : ℚ) (new_supplier : String) : DB :=
  if new_origin != "" && new_product != "" &&
      decide (0 < new_quantity) && decide (0 < new_unit_price) then
    { db with
      green_bean_purchases := db.green_bean_purchases.map (fun p =>
        if p.id == id then
          ⟨p.id, new_date, new_origin, new_product, new_quantity, new_unit_price,
           new_quantity * new_unit_price, new_supplier⟩
        else p) }
  else db

/-- Purchase deletion (`purchase_delete_btn`, src/app.py:1453-1496, duplicated
at :2544-2587): read the purchase, decrement the matching inventory row with a
raw `UPDATE` (a no-op when no inventory row matches — unlike
`update_green_bean_inventory` it inserts nothing), append a
`'purchase_delete'` ledger row dated `date('now')` (the parameter `today`)
with delta `-quantity`, and delete the purchase. -/
def purchase_delete (db : DB) (id : Nat) (today : Date) : DB :=
  match db.green_bean_purchases.find? (fun p => p.id == id) with
  | none => db
  | some purchase_data =>
    { db with
      green_bean_inventory := db.green_bean_inventory.map (fun r =>
        if r.bean_origin == purchase_data.origin &&
            r.bean_product == purchase_data.product_name then
          { r with current_stock_kg := r.current_stock_kg - purchase_data.quantity_kg }
        else r),
      inventory_transactions :=
        add_inventory_transaction today "purchase_delete" "green_bean" purchase_data.origin
          purchase_data.product_name (-purchase_data.quantity_kg) (some id)
          "매입 데이터 삭제로 인한 재고 차감" db.inventory_transactions,
      green_bean_purchases := db.green_bean_purchases.filter (fun p => !(p.id == id)) }

/-- One pass of the consumption loops of the sale edit/delete handlers
(src/app.py:1835-1842, 1866-1873, 1920-1927): for each row of the resolved
batch apply `sign * required` to the bean's stock through
`update_green_bean_inventory` and append a ledger row with the same delta. -/
def apply_sale_lines (db : DB) (lines : List BlendRecipeRow) (green_bean_needed sign : ℚ)
    (tdate : Date) (ttype : String) (rid : Option Nat) (note : String) : DB :=
  lines.foldl (fun d r =>
    let q := sign * required_qty green_bean_needed r.blend_ratio
    { d with
      green_bean_inventory :=
        update_green_bean_inventory r.green_bean_origin r.green_bean_product q
          d.green_bean_inventory,
      inventory_transactions :=
        add_inventory_transaction tdate ttype "green_bean" r.green_bean_origin
          r.green_bean_product q rid note d.inventory_transactions }) db

/-- Sale edit (`sale_edit_btn`, src/app.py:1810-1891, duplicated at
:2901-2982).  Phase 1 restores the original consumption: the legacy recipe is
resolved at the original product and original sale date, and each line's
`restore = round(old_needed * ratio/100, 3)` is applied positively, the ledger
rows being dated `new_date` and tagged `'sale_edit'`.  Phase 2 deducts the new
consumption resolved at the new product and new date, applied negatively,
again dated `new_date`.  Phase 3 rewrites the sale record. -/
def sale_edit (db : DB) (id : Nat) (new_date : Date) (new_product : String)
    (new_quantity new_unit_price : ℚ) (new_customer : String) : DB :=
  match db.product_sales.find? (fun s => s.id == id) with
  | none => db
  | some record =>
    if new_product != "" && decide (0 < new_quantity) && decide (0 < new_unit_price) then
      let old_recipe_records :=
        legacy_recipe_rows db.blend_recipes record.product_name record.sale_date
      let db1 :=
        if old_recipe_records.isEmpty then db
        else
          apply_sale_lines db (latest_batch old_recipe_records)
            (green_bean_needed_for record.quantity_kg) 1 new_date "sale_edit" (some id)
            ("판매 수정으로 인한 생두 복원 - " ++ record.product_name)
      let new_recipe_records :=
        legacy_recipe_rows db1.blend_recipes new_product new_date
      let db2 :=
        if new_recipe_records.isEmpty then db1
        else
          apply_sale_lines db1 (latest_batch new_recipe_records)
            (green_bean_needed_for new_quantity) (-1) new_date "sale_edit" (some id)
            ("판매 수정 후 생두 차감 - " ++ new_product)
      { db2 with
        product_sales := db2.product_sales.map (fun s =>
          if s.id == id then
            ⟨s.id, new_date, new_product, new_quantity, new_unit_price,
             new_quantity * new_unit_price, new_customer⟩
          else s) }
    else db

/-- Sale deletion (`sale_delete_btn`, src/app.py:1896-1942, duplicated at
:2987-3033): restore the consumption of the legacy recipe resolved at the
sale's own product and date (ledger rows dated with the sale's date, tagged
`'sale_delete'`), then delete the sale record. -/
def sale_delete (db : DB) (id : Nat) : DB :=
  match db.product_sales.find? (fun s => s.id == id) with
  | none => db
  | some record =>
    let recipe_records :=
      legacy_recipe_rows db.blend_recipes record.product_name record.sale_date
    let db1 :=
      if recipe_records.isEmpty then db
      else
        apply_sale_lines db (latest_batch recipe_records)
          (green_bean_needed_for record.quantity_kg) 1 record.sale_date "sale_delete"
          (some id) ("판매 삭제로 인한 생두 복원 - " ++ record.product_name ++ " (환불)")
    { db1 with
      product_sales := db1.product_sales.filter (fun s => !(s.id == id)) }

/-- One core operation, as triggered by a form action. -/
inductive Op
  | purchase_create_op (purchase_date : Date) (origin product : String)
      (quantity unit_price : ℚ) (supplier : String)
  | purchase_edit_op (id : Nat) (new_date : Date) (new_origin new_product : String)
      (new_quantity new_unit_price : ℚ) (new_supplier : String)
  | purchase_delete_op (id : Nat) (today : Date)
  | sale_upload_op (row : SaleUploadRow)
  | sale_edit_op (id : Nat) (new_date : Date) (new_product : String)
      (new_quantity new_unit_price : ℚ) (new_customer : String)
  | sale_delete_op (id : Nat)
deriving DecidableEq

/-- Running one core operation against the database. -/
def applyOp (db : DB) : Op → DB
  | Op.purchase_create_op d o p q up s => purchase_create db d o p q up s
  | Op.purchase_edit_op id d o p q up s => purchase_edit db id d o p q up s
  | Op.purchase_delete_op id today => purchase_delete db id today
  | Op.sale_upload_op row => (process_sale_row db row).db
  | Op.sale_edit_op id d p q up c => sale_edit db id d p q up c
  | Op.sale_delete_op id => sale_delete db id

/-- Running a sequence of core operations. -/
def applyOps (db : DB) (ops : List Op) : DB :=
  ops.foldl applyOp db

/-- Recognizer for the purchase-edit operation. -/
def Op.isPurchaseEdit : Op → Bool
  | Op.purchase_edit_op _ _ _ _ _ _ _ => true
  | _ => false

/-- The purchases of one bean with `purchase_date <= cutoff`: the row set
aggregated by `bean_price_query` (src/app.py:3417-3422). -/
def qualifying_purchases (purchases : List PurchaseRow) (origin product_name : String)
    (cutoff : Date) : List PurchaseRow :=
  purchases.filter (fun p =>
    p.origin == origin && p.product_name == product_name && decide (p.purchase_date ≤ cutoff))

/-- `SELECT SUM(total_amount) / SUM(quantity_kg) ... WHERE ... AND
purchase_date <= ?` (`bean_price_query`, src/app.py:3417-3422; the undated
variant over `quantity_kg * unit_price` appears in the stock screen at
src/app.py:2074-2079).  SQL `SUM` over no rows is NULL and SQLite division by
zero is NULL, both embedded as `none`; the caller treats NULL as
"contributes nothing" (src/app.py:3428). -/
def weighted_avg_price (purchases : List PurchaseRow) (origin product_name : String)
    (cutoff : Date) : Option ℚ :=
  let qual := qualifying_purchases purchases origin product_name cutoff
  if qual.isEmpty then none
  else
    let sum_qty := (qual.map (fun p => p.quantity_kg)).sum
    if sum_qty = 0 then none
    else some (((qual.map (fun p => p.total_amount)).sum) / sum_qty)

/-- The reporting month of a date: `strftime('%Y-%m', d)`, i.e. `YYYYMM`. -/
def month_of (d : Date) : Nat := d / 100

/-- The report's synthetic end-of-month cutoff `f"{month}-31"`
(src/app.py:3425). -/
def month_end (m : Nat) : Date := m * 100 + 31

/-- The report's start-of-month key `f"{month}-01"` (src/app.py:3441). -/
def month_start (m : Nat) : Date := m * 100 + 1

/-- The exception text every aggregate lookup of the monthly report produces:
`execute_query_to_df` is declared `(conn, query, params=None)`
(src/app.py:38) but both report call sites pass `(conn, query, conn,
params=...)` (src/app.py:3423-3426 and :3439-3442), so the connection fills
`params` positionally and the keyword `params` duplicates it — Python raises
`TypeError` before any SQL runs. -/
def report_call_type_error : String :=
  "TypeError: execute_query_to_df got multiple values for argument params"

/-- The bean-price lookup of the monthly report (src/app.py:3423-3426).  Had
the call been well-formed it would have computed `weighted_avg_price
db.green_bean_purchases origin product_name cutoff`; as written it raises
`TypeError` (see `report_call_type_error`), so the result is always that
error. -/
def report_bean_price (_db : DB) (_origin _product_name : String) (_cutoff : Date) :
    Except String (Option ℚ) :=
  Except.error report_call_type_error

/-- The variable-cost lookup of the monthly report (src/app.py:3432-3442).
The call raises the same `TypeError` (see `report_call_type_error`) before the
query runs; even its SQL text selects `variable_costs.effective_month`, a
column that exists in neither schema (src/create_turso_schema.py:88-97 keys
the table by `(year, month)`). -/
def report_variable_cost_rate (_db : DB) (_period_start : Date) :
    Except String (Option ℚ) :=
  Except.error report_call_type_error

/-- The per-product monthly sales aggregate `SELECT product_name,
SUM(quantity_kg) ... GROUP BY product_name` (src/app.py:3386-3391): product
names in first-appearance order with their summed quantities. -/
def month_sales (db : DB) (m : Nat) : List (String × ℚ) :=
  let rows := db.product_sales.filter (fun s => month_of s.sale_date == m)
  ((rows.map (fun s => s.product_name)).eraseDups).map (fun n =>
    (n, ((rows.filter (fun s => s.product_name == n)).map (fun s => s.quantity_kg)).sum))

/-- The inner loop of the report's bean-cost computation
(src/app.py:3410-3429): for each recipe row of the product, look the bean's
month-end weighted price up (`report_bean_price` — which raises) and add
`green_bean_needed * ratio/100 * price` when the price is not NULL. -/
def bean_cost_lines (db : DB) (green_bean_needed : ℚ) (m : Nat) :
    List BlendRecipeRow → ℚ → Except String ℚ
  | [], acc => Except.ok acc
  | r :: rs, acc =>
    match report_bean_price db r.green_bean_origin r.green_bean_product (month_end m) with
    | Except.error e => Except.error e
    | Except.ok none => bean_cost_lines db green_bean_needed m rs acc
    | Except.ok (some price) =>
      bean_cost_lines db green_bean_needed m rs
        (acc + green_bean_needed * (r.blend_ratio / 100) * price)

/-- One product's contribution to the report's bean cost
(src/app.py:3395-3429): `green_bean_needed = qty * ROASTING_LOSS_RATE`
(unrounded here, src/app.py:3400) and the recipe query
`SELECT ... FROM blend_recipes WHERE product_name = ?` (src/app.py:3403-3407)
— no date bound and no latest-batch selection: every historical recipe row of
the product is aggregated. -/
def bean_cost_product (db : DB) (product : String) (qty : ℚ) (m : Nat) (acc : ℚ) :
    Except String ℚ :=
  bean_cost_lines db (qty * ROASTING_LOSS_RATE) m
    (db.blend_recipes.filter (fun r => r.product_name == product)) acc

/-- The month loop of the report's bean cost over the grouped product rows. -/
def total_bean_cost_go (db : DB) (m : Nat) : List (String × ℚ) → ℚ → Except String ℚ
  | [], acc => Except.ok acc
  | (product, qty) :: rest, acc =>
    match bean_cost_product db product qty m acc with
    | Except.error e => Except.error e
    | Except.ok acc' => total_bean_cost_go db m rest acc'

/-- `total_bean_cost` of one reporting month (src/app.py:3393-3429). -/
def total_bean_cost (db : DB) (m : Nat) : Except String ℚ :=
  total_bean_cost_go db m (month_sales db m) 0

/-- The report's variable-cost figure for a month (src/app.py:3431-3446):
look up the applicable per-kg rate (a call that raises `TypeError`, see
`report_variable_cost_rate`) and multiply it by the month's finished
sales quantity; zero when no row qualifies. -/
def variable_cost_total (db : DB) (m : Nat) (sales_qty : ℚ) : Except String ℚ :=
  match report_variable_cost_rate db (month_start m) with
  | Except.error e => Except.error e
  | Except.ok none => Except.ok 0
  | Except.ok (some rate) => Except.ok (sales_qty * rate)

/-- The bean cost the specification prescribes for a reporting month, stated
from the claim's words for comparison with `total_bean_cost`: for each sale of
the period, resolve the product's recipe snapshot as of that sale's own date
(the dated legacy resolution, latest batch only), take each line's required
kilograms `round(qty * roast_loss * ratio/100, 3)` and multiply by the bean's
weighted-average price as of the end of the period (NULL contributing
nothing), then sum. -/
def spec_bean_cost (db : DB) (m : Nat) : ℚ :=
  ((db.product_sales.filter (fun s => month_of s.sale_date == m)).map (fun s =>
    ((latest_batch (legacy_recipe_rows db.blend_recipes s.product_name s.sale_date)).map
      (fun r =>
        round3 (s.quantity_kg * ROASTING_LOSS_RATE * (r.blend_ratio / 100)) *
          (weighted_avg_price db.green_bean_purchases r.green_bean_origin
            r.green_bean_product (month_end m)).getD 0)).sum)).sum

/-- Whether an inventory row for the bean exists (the `SELECT` guard of
`update_green_bean_inventory`, src/app.py:248-255). -/
def has_row (inv : List InventoryRow) (origin product : String) : Bool :=
  inv.any (fun r => r.bean_origin == origin && r.bean_product == product)

/-- The green bean a batch of recipe lines consumes for one bean variety:
the sum of `required_qty` over the lines naming that bean. -/
def lines_sum (lines : List BlendRecipeRow) (origin product : String)
    (green_bean_needed : ℚ) : ℚ :=
  ((lines.filter (fun r =>
      r.green_bean_origin == origin && r.green_bean_product == product)).map
    (fun r => required_qty green_bean_needed r.blend_ratio)).sum

/-- The ledger-consistency invariant: every bean's current stock (0 when the
bean has no inventory row) equals the sum of its ledger deltas. -/
def ledger_ok (db : DB) : Prop :=
  ∀ origin product,
    get_bean_stock db.green_bean_inventory origin product =
      tx_sum db.inventory_transactions origin product

/-- Every recorded purchase's bean has an inventory row.  Purchase creation
establishes this and every core operation except purchase edit preserves it;
purchase deletion relies on it, because its raw inventory `UPDATE` silently
matches no row otherwise. -/
def purchases_covered (db : DB) : Prop :=
  ∀ pr ∈ db.green_bean_purchases,
    has_row db.green_bean_inventory pr.origin pr.product_name = true

/-! ## Concrete example data used by the closed theorems -/

/-- An operation sequence containing a purchase edit: create 10 kg of bean
`(A, a)`, edit the purchase to 5 kg of bean `(B, b)`, then delete it. -/
def C1ops_bad : List Op :=
  [Op.purchase_create_op 20240101 "A" "a" 10 100 "s",
   Op.purchase_edit_op 1 20240102 "B" "b" 5 100 "s",
   Op.purchase_delete_op 1 20240103]

/-- An edit-free operation sequence: create a purchase, feed one sale upload
row (which the resolver bug turns into a row error), delete the purchase. -/
def C1ops_good : List Op :=
  [Op.purchase_create_op 20240101 "A" "a" 10 100 "s",
   Op.sale_upload_op ⟨20240201, "P", 1, 11, "c"⟩,
   Op.purchase_delete_op 1 20240301]

/-- A database with an active product `P` carrying two dated master-BOM
assignments: BOM 1 effective 2024-01-01 and BOM 2 effective 2024-06-01. -/
def C2db : DB :=
  { emptyDB with
    products := [⟨1, "P", none, true⟩],
    product_bom_history := [⟨1, some 1, 20240101⟩, ⟨1, some 2, 20240601⟩],
    master_bom_recipes :=
      [⟨1, "A", "a", 70⟩, ⟨1, "B", "b", 30⟩, ⟨2, "A", "a", 50⟩, ⟨2, "B", "b", 50⟩] }

/-- A database holding one recorded purchase of 10 kg of bean `(A, a)` with
the matching inventory row and ledger row. -/
def C4db : DB :=
  { emptyDB with
    green_bean_purchases := [⟨1, 20240101, "A", "a", 10, 100, 1000, "s"⟩],
    green_bean_inventory := [⟨"A", "a", 10⟩],
    inventory_transactions :=
      [⟨20240101, "bean_purchase", "green_bean", "A", "a", 10, some 1, "m"⟩],
    next_purchase_id := 2 }

/-- The recorded sale used by the no-op-edit example: 2 kg of `P` sold on
2024-06-01. -/
def C5record : SaleRecord := ⟨1, 20240601, "P", 2, 100, 200, "c"⟩

/-- A database with a 70/30 legacy recipe for `P`, the sale `C5record` and
stocked beans. -/
def C5db : DB :=
  { emptyDB with
    blend_recipes :=
      [⟨"P", "A", "a", 70, some 20240101⟩, ⟨"P", "B", "b", 30, some 20240101⟩],
    product_sales := [C5record],
    green_bean_inventory := [⟨"A", "a", 10⟩, ⟨"B", "b", 10⟩],
    next_sale_id := 2 }

/-- Three purchases of the same bean: 10 kg @ 100, 20 kg @ 130, 10 kg @ 160. -/
def C7purchases : List PurchaseRow :=
  [⟨1, 20240101, "A", "a", 10, 100, 1000, "s"⟩,
   ⟨2, 20240201, "A", "a", 20, 130, 2600, "s"⟩,
   ⟨3, 20240301, "A", "a", 10, 160, 1600, "s"⟩]

/-- A database with one March 2024 sale of 1 kg of `P`, a single-line 100%
recipe for `P`, and one qualifying purchase of the bean at 100 per kg. -/
def C8db : DB :=
  { emptyDB with
    green_bean_purchases := [⟨1, 20240310, "A", "a", 10, 100, 1000, "s"⟩],
    product_sales := [⟨1, 20240315, "P", 1, 100, 100, "c"⟩],
    blend_recipes := [⟨"P", "A", "a", 100, some 20230101⟩],
    next_purchase_id := 2,
    next_sale_id := 2 }

/-! ## Lemmas about the stock ledger primitives -/

/-- Peeling one inventory row off `get_bean_stock`. -/
lemma get_bean_stock_cons (r : InventoryRow) (rs : List InventoryRow) (o p : String) :
    get_bean_stock (r :: rs) o p =
      if r.bean_origin == o && r.bean_product == p then r.current_stock_kg
      else get_bean_stock rs o p := by
  by_cases h : (r.bean_origin == o && r.bean_product == p) = true
  · simp [get_bean_stock, List.find?_cons, h]
  · have h' : (r.bean_origin == o && r.bean_product == p) = false := by
      simp only [Bool.not_eq_true] at h; exact h
    simp [get_bean_stock, List.find?_cons, h']

/-- Peeling one inventory row off `has_row`. -/
lemma has_row_cons (r : InventoryRow) (rs : List InventoryRow) (o p : String) :
    has_row (r :: rs) o p =
      ((r.bean_origin == o && r.bean_product == p) || has_row rs o p) := by
  simp [has_row, List.any_cons]

/-- Adjusting the stock of the rows of one bean changes `get_bean_stock` of
that bean by the adjustment (when a row exists) and nothing else. -/
lemma get_bean_stock_map_adjust (f : ℚ → ℚ) (o₀ p₀ : String)
    (inv : List InventoryRow) (o p : String) :
    get_bean_stock (inv.map (fun r =>
        if r.bean_origin == o₀ && r.bean_product == p₀ then
          { r with current_stock_kg := f r.current_stock_kg }
        else r)) o p
      = if (o₀ = o ∧ p₀ = p) ∧ has_row inv o p = true then f (get_bean_stock inv o p)
        else get_bean_stock inv o p := by
  induction inv with
  | nil => simp [get_bean_stock, has_row]
  | cons r rs ih =>
    simp only [List.map_cons]
    by_cases hm : (r.bean_origin == o₀ && r.bean_product == p₀) = true
    · obtain ⟨hm1, hm2⟩ : r.bean_origin = o₀ ∧ r.bean_product = p₀ := by simpa using hm
      by_cases hq : (r.bean_origin == o && r.bean_product == p) = true
      · obtain ⟨hq1, hq2⟩ : r.bean_origin = o ∧ r.bean_product = p := by simpa using hq
        simp [get_bean_stock_cons, has_row_cons, hm, hq, ← hm1, ← hm2, ← hq1, ← hq2]
      · have hq' : (r.bean_origin == o && r.bean_product == p) = false := by
          simp only [Bool.not_eq_true] at hq; exact hq
        have hpr : ¬(o₀ = o ∧ p₀ = p) := by
          rintro ⟨h1, h2⟩
          exact hq (by simp [hm1, hm2, h1, h2])
        simpa [get_bean_stock_cons, has_row_cons, hm, hq', hpr] using ih
    · have hm' : (r.bean_origin == o₀ && r.bean_product == p₀) = false := by
        simp only [Bool.not_eq_true] at hm; exact hm
      by_cases hq : (r.bean_origin == o && r.bean_product == p) = true
      · obtain ⟨hq1, hq2⟩ : r.bean_origin = o ∧ r.bean_product = p := by simpa using hq
        have hpr : ¬(o₀ = o ∧ p₀ = p) := by
          rintro ⟨h1, h2⟩
          exact hm (by simp [hq1, hq2, h1, h2])
        simp [get_bean_stock_cons, has_row_cons, hm', hq, hpr]
      · have hq' : (r.bean_origin == o && r.bean_product == p) = false := by
          simp only [Bool.not_eq_true] at hq; exact hq
        simpa [get_bean_stock_cons, has_row_cons, hm', hq'] using ih

/-- When no row of a bean exists, `get_bean_stock` of that bean is zero. -/
lemma get_bean_stock_of_not_has_row (inv : List InventoryRow) (o p : String)
    (h : has_row inv o p = false) : get_bean_stock inv o p = 0 := by
  induction inv with
  | nil => rfl
  | cons r rs ih =>
    rw [has_row_cons, Bool.or_eq_false_iff] at h
    rw [get_bean_stock_cons, if_neg (by simp [h.1]), ih h.2]

/-- `get_bean_stock` over an appended singleton row. -/
lemma get_bean_stock_append_row (inv : List InventoryRow) (row : InventoryRow)
    (o p : String) :
    get_bean_stock (inv ++ [row]) o p =
      if has_row inv o p then get_bean_stock inv o p
      else if row.bean_origin == o && row.bean_product == p then row.current_stock_kg
      else 0 := by
  induction inv with
  | nil =>
    by_cases h : (row.bean_origin == o && row.bean_product == p) = true
    · simp [get_bean_stock, has_row, List.find?_cons, h]
    · have h' : (row.bean_origin == o && row.bean_product == p) = false := by
        simp only [Bool.not_eq_true] at h; exact h
      simp [get_bean_stock, has_row, List.find?_cons, h']
  | cons r rs ih =>
    rw [List.cons_append, get_bean_stock_cons]
    by_cases hq : (r.bean_origin == o && r.bean_product == p) = true
    · rw [if_pos hq, has_row_cons, get_bean_stock_cons]
      simp [hq]
    · have hq' : (r.bean_origin == o && r.bean_product == p) = false := by
        simp only [Bool.not_eq_true] at hq; exact hq
      have hcons : has_row (r :: rs) o p = has_row rs o p := by
        rw [has_row_cons, hq', Bool.false_or]
      rw [if_neg hq, ih, hcons, get_bean_stock_cons]
      simp [hq']

/-- The effect of `update_green_bean_inventory` on every bean's stock value:
the targeted bean gains exactly the applied delta (whether its row is updated
or freshly inserted), all other beans are untouched. -/
lemma get_bean_stock_update (o₀ p₀ : String) (q : ℚ) (inv : List InventoryRow)
    (o p : String) :
    get_bean_stock (update_green_bean_inventory o₀ p₀ q inv) o p
      = get_bean_stock inv o p + if o₀ = o ∧ p₀ = p then q else 0 := by
  unfold update_green_bean_inventory
  by_cases hany : inv.any (fun r => r.bean_origin == o₀ && r.bean_product == p₀) = true
  · rw [if_pos hany]
    have h := get_bean_stock_map_adjust (fun x => x + q) o₀ p₀ inv o p
    by_cases hpr : o₀ = o ∧ p₀ = p
    · have hhr : has_row inv o p = true := by
        rw [← hpr.1, ← hpr.2]; exact hany
      simpa [hpr, hhr] using h
    · simpa [hpr] using h
  · rw [if_neg hany]
    rw [get_bean_stock_append_row]
    have hhr0 : has_row inv o₀ p₀ = false := by
      simp only [Bool.not_eq_true] at hany; exact hany
    by_cases hpr : o₀ = o ∧ p₀ = p
    · have hhr : has_row inv o p = false := by rw [← hpr.1, ← hpr.2]; exact hhr0
      rw [if_neg (by simp [hhr]), if_pos (by simp [hpr.1, hpr.2]),
        get_bean_stock_of_not_has_row inv o p hhr, if_pos hpr, zero_add]
    · by_cases hhr : has_row inv o p = true
      · rw [if_pos (by simp [hhr]), if_neg hpr, add_zero]
      · have hhr' : has_row inv o p = false := by
          simp only [Bool.not_eq_true] at hhr; exact hhr
        rw [if_neg (by simp [hhr']), if_neg (by simp; rintro h1 h2; exact hpr ⟨h1, h2⟩),
          get_bean_stock_of_not_has_row inv o p hhr', if_neg hpr, add_zero]

/-- `tx_sum` over an appended transaction. -/
lemma tx_sum_append (txs : List TransactionRow) (t : TransactionRow) (o p : String) :
    tx_sum (txs ++ [t]) o p =
      tx_sum txs o p + if t.bean_origin = o ∧ t.bean_product = p then t.quantity_kg else 0 := by
  by_cases h : t.bean_origin = o ∧ t.bean_product = p
  · simp [tx_sum, List.filter_append, h.1, h.2, h]
  · have h' : (t.bean_origin == o && t.bean_product == p) = false := by
      simp only [Bool.and_eq_false_iff, beq_eq_false_iff_ne, ne_eq]
      by_cases h1 : t.bean_origin = o
      · exact Or.inr (fun h2 => h ⟨h1, h2⟩)
      · exact Or.inl h1
    simp [tx_sum, List.filter_append, h', h]

/-- `tx_sum` after `add_inventory_transaction`. -/
lemma tx_sum_add_tx (d : Date) (ty it o₀ p₀ : String) (q : ℚ) (rid : Option Nat)
    (note : String) (txs : List TransactionRow) (o p : String) :
    tx_sum (add_inventory_transaction d ty it o₀ p₀ q rid note txs) o p =
      tx_sum txs o p + if o₀ = o ∧ p₀ = p then q else 0 := by
  unfold add_inventory_transaction
  exact tx_sum_append txs _ o p

/-- Stock adjustments keep every existing bean row in place. -/
lemma has_row_map_adjust (f : ℚ → ℚ) (o₀ p₀ : String) (inv : List InventoryRow)
    (o p : String) :
    has_row (inv.map (fun r =>
        if r.bean_origin == o₀ && r.bean_product == p₀ then
          { r with current_stock_kg := f r.current_stock_kg }
        else r)) o p = has_row inv o p := by
  induction inv with
  | nil => rfl
  | cons r rs ih =>
    simp only [List.map_cons]
    by_cases hm : (r.bean_origin == o₀ && r.bean_product == p₀) = true
    · rw [if_pos hm, has_row_cons, has_row_cons, ih]
    · rw [if_neg hm, has_row_cons, has_row_cons, ih]

/-- `update_green_bean_inventory` keeps every existing bean row. -/
lemma has_row_update_mono (o₀ p₀ : String) (q : ℚ) (inv : List InventoryRow)
    (o p : String) (h : has_row inv o p = true) :
    has_row (update_green_bean_inventory o₀ p₀ q inv) o p = true := by
  unfold update_green_bean_inventory
  by_cases hany : inv.any (fun r => r.bean_origin == o₀ && r.bean_product == p₀) = true
  · rw [if_pos hany]
    exact (has_row_map_adjust (fun x => x + q) o₀ p₀ inv o p).trans h
  · rw [if_neg hany]
    simp only [has_row, List.any_append] at h ⊢
    rw [h, Bool.true_or]

/-- After `update_green_bean_inventory` the targeted bean has a row. -/
lemma has_row_update_self (o₀ p₀ : String) (q : ℚ) (inv : List InventoryRow) :
    has_row (update_green_bean_inventory o₀ p₀ q inv) o₀ p₀ = true := by
  unfold update_green_bean_inventory
  by_cases hany : inv.any (fun r => r.bean_origin == o₀ && r.bean_product == p₀) = true
  · rw [if_pos hany]
    exact (has_row_map_adjust (fun x => x + q) o₀ p₀ inv o₀ p₀).trans hany
  · rw [if_neg hany]
    simp [has_row, List.any_append]

/-! ## Lemmas about the consumption fold of the sale edit/delete handlers -/

/-- `apply_sale_lines` touches only the inventory and the transaction log. -/
lemma apply_sale_lines_fields (db : DB) (lines : List BlendRecipeRow)
    (gbn sign : ℚ) (tdate : Date) (ttype : String) (rid : Option Nat) (note : String) :
    (apply_sale_lines db lines gbn sign tdate ttype rid note).green_bean_purchases
        = db.green_bean_purchases ∧
      (apply_sale_lines db lines gbn sign tdate ttype rid note).product_sales
        = db.product_sales ∧
      (apply_sale_lines db lines gbn sign tdate ttype rid note).blend_recipes
        = db.blend_recipes := by
  induction lines generalizing db with
  | nil => exact ⟨rfl, rfl, rfl⟩
  | cons r rs ih => exact ih _

/-- The stock effect of `apply_sale_lines`: each bean moves by `sign` times
the summed required quantity of the lines naming it. -/
lemma apply_sale_lines_stock (lines : List BlendRecipeRow) (db : DB)
    (gbn sign : ℚ) (tdate : Date) (ttype : String) (rid : Option Nat) (note : String)
    (o p : String) :
    get_bean_stock (apply_sale_lines db lines gbn sign tdate ttype rid note).green_bean_inventory o p
      = get_bean_stock db.green_bean_inventory o p + sign * lines_sum lines o p gbn := by
  induction lines generalizing db with
  | nil => simp [apply_sale_lines, lines_sum]
  | cons r rs ih =>
    rw [show apply_sale_lines db (r :: rs) gbn sign tdate ttype rid note
        = apply_sale_lines
            { db with
              green_bean_inventory :=
                update_green_bean_inventory r.green_bean_origin r.green_bean_product
                  (sign * required_qty gbn r.blend_ratio) db.green_bean_inventory,
              inventory_transactions :=
                add_inventory_transaction tdate ttype "green_bean" r.green_bean_origin
                  r.green_bean_product (sign * required_qty gbn r.blend_ratio) rid note
                  db.inventory_transactions }
            rs gbn sign tdate ttype rid note from rfl, ih]
    simp only [get_bean_stock_update]
    by_cases h : r.green_bean_origin = o ∧ r.green_bean_product = p
    · have hb : (r.green_bean_origin == o && r.green_bean_product == p) = true := by
        simp [h.1, h.2]
      rw [if_pos h]
      simp only [lines_sum, List.filter_cons, hb, if_true, List.map_cons, List.sum_cons]
      ring
    · have hb : (r.green_bean_origin == o && r.green_bean_product == p) = false := by
        simp only [Bool.and_eq_false_iff, beq_eq_false_iff_ne, ne_eq]
        by_cases h1 : r.green_bean_origin = o
        · exact Or.inr (fun h2 => h ⟨h1, h2⟩)
        · exact Or.inl h1
      rw [if_neg h]
      simp only [lines_sum, List.filter_cons, hb, Bool.false_eq_true, if_false]
      ring

/-- The ledger effect of `apply_sale_lines`: each bean's transaction sum moves
by exactly the same amount as its stock. -/
lemma apply_sale_lines_tx (lines : List BlendRecipeRow) (db : DB)
    (gbn sign : ℚ) (tdate : Date) (ttype : String) (rid : Option Nat) (note : String)
    (o p : String) :
    tx_sum (apply_sale_lines db lines gbn sign tdate ttype rid note).inventory_transactions o p
      = tx_sum db.inventory_transactions o p + sign * lines_sum lines o p gbn := by
  induction lines generalizing db with
  | nil => simp [apply_sale_lines, lines_sum]
  | cons r rs ih =>
    rw [show apply_sale_lines db (r :: rs) gbn sign tdate ttype rid note
        = apply_sale_lines
            { db with
              green_bean_inventory :=
                update_green_bean_inventory r.green_bean_origin r.green_bean_product
                  (sign * required_qty gbn r.blend_ratio) db.green_bean_inventory,
              inventory_transactions :=
                add_inventory_transaction tdate ttype "green_bean" r.green_bean_origin
                  r.green_bean_product (sign * required_qty gbn r.blend_ratio) rid note
                  db.inventory_transactions }
            rs gbn sign tdate ttype rid note from rfl, ih]
    simp only [tx_sum_add_tx]
    by_cases h : r.green_bean_origin = o ∧ r.green_bean_product = p
    · have hb : (r.green_bean_origin == o && r.green_bean_product == p) = true := by
        simp [h.1, h.2]
      rw [if_pos h]
      simp only [lines_sum, List.filter_cons, hb, if_true, List.map_cons, List.sum_cons]
      ring
    · have hb : (r.green_bean_origin == o && r.green_bean_product == p) = false := by
        simp only [Bool.and_eq_false_iff, beq_eq_false_iff_ne, ne_eq]
        by_cases h1 : r.green_bean_origin = o
        · exact Or.inr (fun h2 => h ⟨h1, h2⟩)
        · exact Or.inl h1
      rw [if_neg h]
      simp only [lines_sum, List.filter_cons, hb, Bool.false_eq_true, if_false]
      ring

/-- `apply_sale_lines` keeps every existing bean row. -/
lemma apply_sale_lines_has_row (lines : List BlendRecipeRow) (db : DB)
    (gbn sign : ℚ) (tdate : Date) (ttype : String) (rid : Option Nat) (note : String)
    (o p : String) (h : has_row db.green_bean_inventory o p = true) :
    has_row (apply_sale_lines db lines gbn sign tdate ttype rid note).green_bean_inventory o p
      = true := by
  induction lines generalizing db with
  | nil => exact h
  | cons r rs ih =>
    exact ih _ (has_row_update_mono _ _ _ _ _ _ h)

/-- Every transaction `apply_sale_lines` appends is dated with its `tdate`
argument. -/
lemma apply_sale_lines_txs_append (lines : List BlendRecipeRow) (db : DB)
    (gbn sign : ℚ) (tdate : Date) (ttype : String) (rid : Option Nat) (note : String) :
    ∃ ts, (apply_sale_lines db lines gbn sign tdate ttype rid note).inventory_transactions
        = db.inventory_transactions ++ ts ∧
      ∀ t ∈ ts, t.transaction_date = tdate := by
  induction lines generalizing db with
  | nil => exact ⟨[], (List.append_nil _).symm, by simp⟩
  | cons r rs ih =>
    obtain ⟨ts, hts, hall⟩ := ih
      { db with
        green_bean_inventory :=
          update_green_bean_inventory r.green_bean_origin r.green_bean_product
            (sign * required_qty gbn r.blend_ratio) db.green_bean_inventory,
        inventory_transactions :=
          add_inventory_transaction tdate ttype "green_bean" r.green_bean_origin
            r.green_bean_product (sign * required_qty gbn r.blend_ratio) rid note
            db.inventory_transactions }
    refine ⟨⟨tdate, ttype, "green_bean", r.green_bean_origin, r.green_bean_product,
      sign * required_qty gbn r.blend_ratio, rid, note⟩ :: ts, ?_, ?_⟩
    · rw [show apply_sale_lines db (r :: rs) gbn sign tdate ttype rid note
          = apply_sale_lines
              { db with
                green_bean_inventory :=
                  update_green_bean_inventory r.green_bean_origin r.green_bean_product
                    (sign * required_qty gbn r.blend_ratio) db.green_bean_inventory,
                inventory_transactions :=
                  add_inventory_transaction tdate ttype "green_bean" r.green_bean_origin
                    r.green_bean_product (sign * required_qty gbn r.blend_ratio) rid note
                    db.inventory_transactions }
              rs gbn sign tdate ttype rid note from rfl, hts]
      simp [add_inventory_transaction]
    · intro t ht
      rcases List.mem_cons.mp ht with h1 | h1
      · rw [h1]
      · exact hall t h1

/-! ## The recipe resolver raises whenever a date is supplied -/

/-- With a supplied as-of date, `get_product_bom` always raises
`UnboundLocalError`: the date-filtered fetches are missing from both the
master-BOM path and the legacy path. -/
lemma get_product_bom_some_date (db : DB) (name : String) (d : Date) :
    ∃ e, get_product_bom db name (some d) = Except.error e := by
  unfold get_product_bom get_product_bom_legacy
  cases db.products.find? (fun p => p.product_name == name && p.is_active) <;>
    exact ⟨_, rfl⟩

/-- Every sale upload row fails: the recipe lookup raises before any database
write, the row-level handler catches the exception, and the row is recorded as
an error with the database unchanged. -/
lemma process_sale_row_spec (db : DB) (row : SaleUploadRow) :
    ∃ e, process_sale_row db row = ⟨db, false, [Warning.row_error e]⟩ := by
  obtain ⟨e, he⟩ := get_product_bom_some_date db row.product row.sale_date
  refine ⟨e, ?_⟩
  unfold process_sale_row
  rw [he]

/-! ## Invariant preservation of the core operations -/

/-- Purchase creation preserves the ledger invariant and coverage. -/
lemma purchase_create_invariant (db : DB) (d : Date) (o₀ p₀ : String) (q up : ℚ)
    (s : String) (hL : ledger_ok db) (hC : purchases_covered db) :
    ledger_ok (purchase_create db d o₀ p₀ q up s) ∧
      purchases_covered (purchase_create db d o₀ p₀ q up s) := by
  unfold purchase_create
  by_cases hg : (o₀ != "" && p₀ != "" && decide (0 < q) && decide (0 < up)) = true
  · rw [if_pos hg]
    constructor
    · intro o p
      show get_bean_stock (update_green_bean_inventory o₀ p₀ q db.green_bean_inventory) o p
        = tx_sum (add_inventory_transaction d "bean_purchase" "green_bean" o₀ p₀ q
            (some db.next_purchase_id) ("매입 - " ++ s) db.inventory_transactions) o p
      rw [get_bean_stock_update, tx_sum_add_tx, hL o p]
    · intro pr hpr
      show has_row (update_green_bean_inventory o₀ p₀ q db.green_bean_inventory)
        pr.origin pr.product_name = true
      have hpr' : pr ∈ db.green_bean_purchases ++
          [⟨db.next_purchase_id, d, o₀, p₀, q, up, q * up, s⟩] := hpr
      rcases List.mem_append.mp hpr' with h1 | h1
      · exact has_row_update_mono _ _ _ _ _ _ (hC pr h1)
      · have : pr = ⟨db.next_purchase_id, d, o₀, p₀, q, up, q * up, s⟩ :=
          List.mem_singleton.mp h1
        rw [this]
        exact has_row_update_self o₀ p₀ q db.green_bean_inventory
  · rw [if_neg hg]; exact ⟨hL, hC⟩

/-- Purchase deletion preserves the ledger invariant and coverage: coverage
guarantees the raw inventory `UPDATE` finds the row it decrements. -/
lemma purchase_delete_invariant (db : DB) (id : Nat) (today : Date)
    (hL : ledger_ok db) (hC : purchases_covered db) :
    ledger_ok (purchase_delete db id today) ∧
      purchases_covered (purchase_delete db id today) := by
  unfold purchase_delete
  cases hfind : db.green_bean_purchases.find? (fun p => p.id == id) with
  | none => exact ⟨hL, hC⟩
  | some pr =>
    have hmem : pr ∈ db.green_bean_purchases := List.mem_of_find?_eq_some hfind
    have hrow : has_row db.green_bean_inventory pr.origin pr.product_name = true :=
      hC pr hmem
    constructor
    · intro o p
      show get_bean_stock (db.green_bean_inventory.map (fun r =>
          if r.bean_origin == pr.origin && r.bean_product == pr.product_name then
            { r with current_stock_kg := r.current_stock_kg - pr.quantity_kg }
          else r)) o p
        = tx_sum (add_inventory_transaction today "purchase_delete" "green_bean" pr.origin
            pr.product_name (-pr.quantity_kg) (some id)
            "매입 데이터 삭제로 인한 재고 차감" db.inventory_transactions) o p
      have hadj := get_bean_stock_map_adjust (fun x => x - pr.quantity_kg)
        pr.origin pr.product_name db.green_bean_inventory o p
      rw [tx_sum_add_tx, ← hL o p]
      by_cases hpr2 : pr.origin = o ∧ pr.product_name = p
      · have hr : has_row db.green_bean_inventory o p = true := by
          rw [← hpr2.1, ← hpr2.2]; exact hrow
        have hadj' := hadj.trans (if_pos ⟨hpr2, hr⟩)
        rw [if_pos hpr2, hadj']
        show get_bean_stock db.green_bean_inventory o p - pr.quantity_kg
          = get_bean_stock db.green_bean_inventory o p + -pr.quantity_kg
        ring
      · simp only [hpr2, false_and, if_false] at hadj
        rw [if_neg hpr2, add_zero]
        simpa using hadj
    · intro pr2 hpr2
      have hpr2' : pr2 ∈ db.green_bean_purchases.filter (fun p => !(p.id == id)) := hpr2
      have hmem2 : pr2 ∈ db.green_bean_purchases := List.mem_of_mem_filter hpr2'
      show has_row (db.green_bean_inventory.map (fun r =>
          if r.bean_origin == pr.origin && r.bean_product == pr.product_name then
            { r with current_stock_kg := r.current_stock_kg - pr.quantity_kg }
          else r)) pr2.origin pr2.product_name = true
      exact (has_row_map_adjust (fun x => x - pr.quantity_kg) pr.origin pr.product_name
        db.green_bean_inventory pr2.origin pr2.product_name).trans (hC pr2 hmem2)

/-- Purchase edit leaves inventory and ledger untouched, so it preserves the
ledger invariant itself — but it does not preserve coverage. -/
lemma purchase_edit_ledger (db : DB) (id : Nat) (d : Date) (o₀ p₀ : String)
    (q up : ℚ) (s : String) (hL : ledger_ok db) :
    ledger_ok (purchase_edit db id d o₀ p₀ q up s) := by
  unfold purchase_edit
  by_cases hg : (o₀ != "" && p₀ != "" && decide (0 < q) && decide (0 < up)) = true
  · rw [if_pos hg]; exact hL
  · rw [if_neg hg]; exact hL

/-- A consumption phase (restore or deduct) pairs every stock change with a
ledger row of the same delta, so it preserves both invariants. -/
lemma apply_sale_lines_invariant (db : DB) (lines : List BlendRecipeRow)
    (gbn sign : ℚ) (tdate : Date) (ttype : String) (rid : Option Nat) (note : String)
    (hL : ledger_ok db) (hC : purchases_covered db) :
    ledger_ok (apply_sale_lines db lines gbn sign tdate ttype rid note) ∧
      purchases_covered (apply_sale_lines db lines gbn sign tdate ttype rid note) := by
  constructor
  · intro o p
    rw [apply_sale_lines_stock, apply_sale_lines_tx, hL o p]
  · intro pr hpr
    rw [(apply_sale_lines_fields db lines gbn sign tdate ttype rid note).1] at hpr
    exact apply_sale_lines_has_row lines db gbn sign tdate ttype rid note
      pr.origin pr.product_name (hC pr hpr)

/-- The guarded form of a consumption phase preserves the invariants. -/
lemma phase_invariant (db : DB) (records : List BlendRecipeRow)
    (gbn sign : ℚ) (tdate : Date) (ttype : String) (rid : Option Nat) (note : String)
    (hL : ledger_ok db) (hC : purchases_covered db) :
    ledger_ok (if records.isEmpty then db
        else apply_sale_lines db (latest_batch records) gbn sign tdate ttype rid note) ∧
      purchases_covered (if records.isEmpty then db
        else apply_sale_lines db (latest_batch records) gbn sign tdate ttype rid note) := by
  split
  · exact ⟨hL, hC⟩
  · exact apply_sale_lines_invariant db (latest_batch records) gbn sign tdate ttype rid note
      hL hC

/-- Sale edit preserves the invariants: both phases pair stock changes with
ledger rows, and the final record update touches neither. -/
lemma sale_edit_invariant (db : DB) (id : Nat) (nd : Date) (np : String) (nq nup : ℚ)
    (nc : String) (hL : ledger_ok db) (hC : purchases_covered db) :
    ledger_ok (sale_edit db id nd np nq nup nc) ∧
      purchases_covered (sale_edit db id nd np nq nup nc) := by
  unfold sale_edit
  cases hfind : db.product_sales.find? (fun s => s.id == id) with
  | none => exact ⟨hL, hC⟩
  | some record =>
    dsimp only
    by_cases hg : (np != "" && decide (0 < nq) && decide (0 < nup)) = true
    · rw [if_pos hg]
      have h1 := phase_invariant db
        (legacy_recipe_rows db.blend_recipes record.product_name record.sale_date)
        (green_bean_needed_for record.quantity_kg) 1 nd "sale_edit" (some id)
        ("판매 수정으로 인한 생두 복원 - " ++ record.product_name) hL hC
      have h2 := phase_invariant
        (if (legacy_recipe_rows db.blend_recipes record.product_name
              record.sale_date).isEmpty then db
         else apply_sale_lines db (latest_batch (legacy_recipe_rows db.blend_recipes
              record.product_name record.sale_date))
           (green_bean_needed_for record.quantity_kg) 1 nd "sale_edit" (some id)
           ("판매 수정으로 인한 생두 복원 - " ++ record.product_name))
        (legacy_recipe_rows
          (if (legacy_recipe_rows db.blend_recipes record.product_name
                record.sale_date).isEmpty then db
           else apply_sale_lines db (latest_batch (legacy_recipe_rows db.blend_recipes
                record.product_name record.sale_date))
             (green_bean_needed_for record.quantity_kg) 1 nd "sale_edit" (some id)
             ("판매 수정으로 인한 생두 복원 - " ++ record.product_name)).blend_recipes np nd)
        (green_bean_needed_for nq) (-1) nd "sale_edit" (some id)
        ("판매 수정 후 생두 차감 - " ++ np) h1.1 h1.2
      exact ⟨h2.1, h2.2⟩
    · rw [if_neg hg]; exact ⟨hL, hC⟩

/-- Sale deletion preserves the invariants. -/
lemma sale_delete_invariant (db : DB) (id : Nat)
    (hL : ledger_ok db) (hC : purchases_covered db) :
    ledger_ok (sale_delete db id) ∧ purchases_covered (sale_delete db id) := by
  unfold sale_delete
  cases hfind : db.product_sales.find? (fun s => s.id == id) with
  | none => exact ⟨hL, hC⟩
  | some record =>
    have h1 := phase_invariant db
      (legacy_recipe_rows db.blend_recipes record.product_name record.sale_date)
      (green_bean_needed_for record.quantity_kg) 1 record.sale_date "sale_delete" (some id)
      ("판매 삭제로 인한 생두 복원 - " ++ record.product_name ++ " (환불)") hL hC
    exact ⟨h1.1, h1.2⟩

/-- Every core operation except purchase edit preserves both invariants. -/
lemma applyOp_invariant (db : DB) (op : Op) (hop : op.isPurchaseEdit = false)
    (hL : ledger_ok db) (hC : purchases_covered db) :
    ledger_ok (applyOp db op) ∧ purchases_covered (applyOp db op) := by
  cases op with
  | purchase_create_op d o₀ p₀ q up s => exact purchase_create_invariant db d o₀ p₀ q up s hL hC
  | purchase_edit_op id d o₀ p₀ q up s => exact absurd hop (by simp [Op.isPurchaseEdit])
  | purchase_delete_op id today => exact purchase_delete_invariant db id today hL hC
  | sale_upload_op row =>
    obtain ⟨e, he⟩ := process_sale_row_spec db row
    have hdb : (process_sale_row db row).db = db := by rw [he]
    show ledger_ok (process_sale_row db row).db ∧ purchases_covered (process_sale_row db row).db
    rw [hdb]
    exact ⟨hL, hC⟩
  | sale_edit_op id d p q up c => exact sale_edit_invariant db id d p q up c hL hC
  | sale_delete_op id => exact sale_delete_invariant db id hL hC

/-- A sequence of core operations without purchase edits preserves both
invariants. -/
lemma applyOps_invariant (ops : List Op) : ∀ db : DB,
    ops.all (fun op => !op.isPurchaseEdit) = true →
    ledger_ok db → purchases_covered db →
    ledger_ok (applyOps db ops) ∧ purchases_covered (applyOps db ops) := by
  induction ops with
  | nil => exact fun db _ hL hC => ⟨hL, hC⟩
  | cons op rest ih =>
    intro db hall hL hC
    rw [List.all_cons, Bool.and_eq_true] at hall
    have hop : op.isPurchaseEdit = false := by
      have := hall.1
      cases h : op.isPurchaseEdit
      · rfl
      · rw [h] at this; exact absurd this (by simp)
    have h1 := applyOp_invariant db op hop hL hC
    exact ih (applyOp db op) hall.2 h1.1 h1.2

/-- Transactions appended by the guarded form of a consumption phase all carry
the phase's date. -/
lemma phase_txs (db : DB) (records : List BlendRecipeRow) (gbn sign : ℚ)
    (tdate : Date) (ttype : String) (rid : Option Nat) (note : String) :
    ∃ ts, (if records.isEmpty then db
        else apply_sale_lines db (latest_batch records) gbn
          sign tdate ttype rid note).inventory_transactions
      = db.inventory_transactions ++ ts ∧ ∀ t ∈ ts, t.transaction_date = tdate := by
  split
  · exact ⟨[], (List.append_nil _).symm, by simp⟩
  · exact apply_sale_lines_txs_append (latest_batch records) db gbn sign tdate ttype rid note

/-- The report's bean-cost line loop raises as soon as one recipe row is
present: the very first price lookup is the ill-formed helper call. -/
lemma bean_cost_lines_cons_err (db : DB) (gbn : ℚ) (m : Nat) (r : BlendRecipeRow)
    (rs : List BlendRecipeRow) (acc : ℚ) :
    bean_cost_lines db gbn m (r :: rs) acc = Except.error report_call_type_error := rfl

/-- The report's bean-cost month loop raises whenever some sold product has at
least one legacy recipe row. -/
lemma total_bean_cost_go_err (db : DB) (m : Nat) :
    ∀ (rows : List (String × ℚ)) (acc : ℚ),
      (rows.any (fun pq =>
        db.blend_recipes.any (fun r => r.product_name == pq.1))) = true →
      total_bean_cost_go db m rows acc = Except.error report_call_type_error := by
  intro rows
  induction rows with
  | nil => intro acc h; exact absurd h (by simp)
  | cons pq rest ih =>
    intro acc h
    cases hh : db.blend_recipes.any (fun r => r.product_name == pq.1) with
    | true =>
      obtain ⟨r, hr, hpr⟩ := List.any_eq_true.mp hh
      have hmem : r ∈ db.blend_recipes.filter (fun r => r.product_name == pq.1) :=
        List.mem_filter.mpr ⟨hr, hpr⟩
      cases hfil : db.blend_recipes.filter (fun r => r.product_name == pq.1) with
      | nil => rw [hfil] at hmem; exact absurd hmem (List.not_mem_nil r)
      | cons r0 rs0 =>
        show (match bean_cost_product db pq.1 pq.2 m acc with
          | Except.error e => Except.error e
          | Except.ok acc2 => total_bean_cost_go db m rest acc2)
            = Except.error report_call_type_error
        unfold bean_cost_product
        rw [hfil, bean_cost_lines_cons_err]
    | false =>
      have hrest : (rest.any (fun pq =>
          db.blend_recipes.any (fun r => r.product_name == pq.1))) = true := by
        rw [List.any_cons, hh, Bool.false_or] at h
        exact h
      have hfil : db.blend_recipes.filter (fun r => r.product_name == pq.1) = [] := by
        rw [List.filter_eq_nil_iff]
        intro r hr hcontra
        have hmm : db.blend_recipes.any (fun r => r.product_name == pq.1) = true :=
          List.any_eq_true.mpr ⟨r, hr, hcontra⟩
        rw [hh] at hmm
        exact absurd hmm (by simp)
      show (match bean_cost_product db pq.1 pq.2 m acc with
        | Except.error e => Except.error e
        | Except.ok acc2 => total_bean_cost_go db m rest acc2)
          = Except.error report_call_type_error
      unfold bean_cost_product
      rw [hfil]
      exact ih acc hrest

/-! ## The claims -/

/-- C1 (counterexample): after creating a 10 kg purchase of bean `(A, a)`,
editing it to 5 kg of bean `(B, b)` and deleting it, bean `(B, b)` has no
inventory row (stock 0) while its ledger deltas sum to −5: the purchase edit
rewrote the purchase without touching stock, and the delete then reversed the
edited quantity against a bean that has no row. -/
theorem C1_ledger_invariant_counterexample :
    get_bean_stock (applyOps emptyDB C1ops_bad).green_bean_inventory "B" "b" = 0 ∧
    tx_sum (applyOps emptyDB C1ops_bad).inventory_transactions "B" "b" = -5 ∧
    ¬ (get_bean_stock (applyOps emptyDB C1ops_bad).green_bean_inventory "B" "b"
        = tx_sum (applyOps emptyDB C1ops_bad).inventory_transactions "B" "b") := by
  have hs : get_bean_stock (applyOps emptyDB C1ops_bad).green_bean_inventory "B" "b"
      = (0 : ℚ) := rfl
  have ht : tx_sum (applyOps emptyDB C1ops_bad).inventory_transactions "B" "b"
      = (-(5 : ℚ)) + 0 := rfl
  refine ⟨hs, ?_, ?_⟩
  · rw [ht]; norm_num
  · intro h
    rw [hs, ht] at h
    norm_num at h

/-- C1 (amended): for every bean variety, after every sequence of core
operations that contains no purchase edit — starting from any state where
stock already matches the ledger and every purchase's bean has an inventory
row, as is true of the empty database — the bean's current stock equals the
sum of its ledger deltas, a missing inventory row counting as stock 0. -/
theorem C1_ledger_invariant_amended :
    ∀ (db : DB) (ops : List Op), ledger_ok db → purchases_covered db →
      ops.all (fun op => !op.isPurchaseEdit) = true →
      ledger_ok (applyOps db ops) :=
  fun db ops hL hC hall => (applyOps_invariant ops db hall hL hC).1

/-- C1 (witness): the amended invariant evaluated on a concrete edit-free
operation sequence from the empty database. -/
theorem C1_ledger_invariant_witness :
    ledger_ok emptyDB ∧ purchases_covered emptyDB ∧
    (C1ops_good.all (fun op => !op.isPurchaseEdit)) = true ∧
    get_bean_stock (applyOps emptyDB C1ops_good).green_bean_inventory "A" "a"
      = tx_sum (applyOps emptyDB C1ops_good).inventory_transactions "A" "a" :=
  ⟨fun _ _ => rfl,
   fun pr h => absurd h (List.not_mem_nil pr),
   by decide,
   C1_ledger_invariant_amended emptyDB C1ops_good (fun _ _ => rfl)
     (fun pr h => absurd h (List.not_mem_nil pr)) (by decide) "A" "a"⟩

/-- C2: for every database, product name and supplied as-of date, the recipe
resolver raises `UnboundLocalError` instead of returning the dated
assignment's lines — the date-filtered queries are executed but never fetched;
in particular, on a product with assignments effective 2024-01-01 and
2024-06-01, resolving as of 2024-03-01 raises instead of returning the first
assignment's lines. -/
theorem C2_resolver_raises_with_date :
    (∀ (db : DB) (product_name : String) (d : Date),
      ∃ e, get_product_bom db product_name (some d) = Except.error e) ∧
    get_product_bom C2db "P" (some 20240301)
      = Except.error "UnboundLocalError: bom_result" :=
  ⟨get_product_bom_some_date, rfl⟩

/-- C3: every sale upload row errors out instead of being recorded: the
recipe lookup raises `UnboundLocalError`, the per-row handler counts the row
as an error, no sale row is inserted, no stock is touched, and the only
message is the caught exception — not a shortage warning. -/
theorem C3_sale_upload_row_always_errors :
    ∀ (db : DB) (row : SaleUploadRow),
      (process_sale_row db row).db = db ∧
      (process_sale_row db row).success = false ∧
      ∃ e, (process_sale_row db row).warnings = [Warning.row_error e] := by
  intro db row
  obtain ⟨e, he⟩ := process_sale_row_spec db row
  rw [he]
  exact ⟨rfl, rfl, e, rfl⟩

/-- C4 (counterexample): editing the recorded 10 kg purchase of bean `(A, a)`
into 5 kg of bean `(B, b)` leaves stock of `(A, a)` at 10 and `(B, b)` at 0,
not the claimed reverse-and-reapply result (0 and 5). -/
theorem C4_purchase_edit_counterexample :
    get_bean_stock (purchase_edit C4db 1 20240102 "B" "b" 5 120 "s2").green_bean_inventory
        "A" "a" = 10 ∧
    get_bean_stock (purchase_edit C4db 1 20240102 "B" "b" 5 120 "s2").green_bean_inventory
        "B" "b" = 0 ∧
    ¬ (get_bean_stock (purchase_edit C4db 1 20240102 "B" "b" 5 120 "s2").green_bean_inventory
          "A" "a" = 0 ∧
       get_bean_stock (purchase_edit C4db 1 20240102 "B" "b" 5 120 "s2").green_bean_inventory
          "B" "b" = 5) := by
  have hA : get_bean_stock (purchase_edit C4db 1 20240102 "B" "b" 5 120
      "s2").green_bean_inventory "A" "a" = (10 : ℚ) := rfl
  have hB : get_bean_stock (purchase_edit C4db 1 20240102 "B" "b" 5 120
      "s2").green_bean_inventory "B" "b" = (0 : ℚ) := rfl
  refine ⟨hA, hB, ?_⟩
  rintro ⟨h1, -⟩
  rw [hA] at h1
  norm_num at h1

/-- C4 (amended): the purchase-edit operation only rewrites the purchase row:
it never touches inventory, appends no ledger row and leaves sales alone, so
stock keeps reflecting the pre-edit quantity. -/
theorem C4_purchase_edit_no_stock_effect :
    ∀ (db : DB) (id : Nat) (d : Date) (o₀ p₀ : String) (q up : ℚ) (s : String),
      (purchase_edit db id d o₀ p₀ q up s).green_bean_inventory
          = db.green_bean_inventory ∧
      (purchase_edit db id d o₀ p₀ q up s).inventory_transactions
          = db.inventory_transactions ∧
      (purchase_edit db id d o₀ p₀ q up s).product_sales = db.product_sales := by
  intro db id d o₀ p₀ q up s
  unfold purchase_edit
  split <;> exact ⟨rfl, rfl, rfl⟩

/-- C5: a no-op sale edit — same product, same date, same quantity, only
price or customer changed — leaves every bean variety's stock exactly as it
was: the restore quantities of the reversal phase cancel the deduct
quantities of the reapply phase. -/
theorem C5_noop_sale_edit_stock_unchanged
    (db : DB) (id : Nat) (record : SaleRecord) (nup : ℚ) (nc : String)
    (hfind : db.product_sales.find? (fun s => s.id == id) = some record) :
    ∀ o p, get_bean_stock (sale_edit db id record.sale_date record.product_name
        record.quantity_kg nup nc).green_bean_inventory o p
      = get_bean_stock db.green_bean_inventory o p := by
  intro o p
  unfold sale_edit
  rw [hfind]
  dsimp only
  by_cases hg : (record.product_name != "" && decide (0 < record.quantity_kg) &&
      decide (0 < nup)) = true
  · rw [if_pos hg]
    dsimp only
    by_cases hR : (legacy_recipe_rows db.blend_recipes record.product_name
        record.sale_date).isEmpty = true
    · rw [if_pos hR, if_pos hR]
    · rw [if_neg hR,
        (apply_sale_lines_fields db (latest_batch (legacy_recipe_rows db.blend_recipes
          record.product_name record.sale_date)) (green_bean_needed_for record.quantity_kg)
          1 record.sale_date "sale_edit" (some id)
          ("판매 수정으로 인한 생두 복원 - " ++ record.product_name)).2.2,
        if_neg hR, apply_sale_lines_stock, apply_sale_lines_stock]
      ring
  · rw [if_neg hg]

/-- C5 (witness): the no-op edit evaluated on a concrete database with a
70/30 recipe and a recorded 2 kg sale. -/
theorem C5_noop_sale_edit_witness :
    C5db.product_sales.find? (fun s => s.id == 1) = some C5record ∧
    get_bean_stock (sale_edit C5db 1 C5record.sale_date C5record.product_name
        C5record.quantity_kg 55 "c2").green_bean_inventory "A" "a"
      = get_bean_stock C5db.green_bean_inventory "A" "a" :=
  ⟨rfl, C5_noop_sale_edit_stock_unchanged C5db 1 C5record 55 "c2" rfl "A" "a"⟩

/-- C6: every sale-side consumption line requires
`round(green_bean_needed * ratio/100, 3)` kilograms, with `green_bean_needed`
obtained from the finished quantity via the roast-loss rate 1.2; selling 1 kg
of a 70%/30% blend consumes exactly 0.840 kg and 0.360 kg. -/
theorem C6_conversion_arithmetic :
    (∀ q ratio : ℚ, required_qty (green_bean_needed_for q) ratio
        = round3 (round3 (q * ROASTING_LOSS_RATE) * (ratio / 100))) ∧
    required_qty (green_bean_needed_for 1) 70 = 840/1000 ∧
    required_qty (green_bean_needed_for 1) 30 = 360/1000 :=
  ⟨fun _ _ => rfl,
   by norm_num [required_qty, green_bean_needed_for, round3, roundHalfEven,
     ROASTING_LOSS_RATE],
   by norm_num [required_qty, green_bean_needed_for, round3, roundHalfEven,
     ROASTING_LOSS_RATE]⟩

/-- C7: the weighted-average purchase price of a bean as of a cutoff equals
the quantity-weighted mean of its purchases dated on or before the cutoff
(`0` when none qualifies, by the division convention `x / 0 = 0` mirroring
the NULL-skipping caller), provided each row's `total_amount` is the
`quantity * unit_price` the write paths store; purchases of (10 kg @ 100,
20 kg @ 130, 10 kg @ 160) give exactly 130. -/
theorem C7_weighted_avg_price :
    (∀ (purchases : List PurchaseRow) (o pn : String) (cutoff : Date),
      (∀ pr ∈ purchases, pr.total_amount = pr.quantity_kg * pr.unit_price) →
      (weighted_avg_price purchases o pn cutoff).getD 0
        = ((qualifying_purchases purchases o pn cutoff).map
            (fun pr => pr.quantity_kg * pr.unit_price)).sum
          / ((qualifying_purchases purchases o pn cutoff).map
            (fun pr => pr.quantity_kg)).sum) ∧
    weighted_avg_price C7purchases "A" "a" 20241231 = some 130 := by
  constructor
  · intro purchases o pn cutoff h
    unfold weighted_avg_price
    dsimp only
    by_cases he : (qualifying_purchases purchases o pn cutoff).isEmpty = true
    · rw [if_pos he]
      have hnil : qualifying_purchases purchases o pn cutoff = [] :=
        List.isEmpty_iff.mp he
      rw [hnil]
      simp
    · rw [if_neg he]
      by_cases hz : ((qualifying_purchases purchases o pn cutoff).map
          (fun pr => pr.quantity_kg)).sum = 0
      · rw [if_pos hz, hz, div_zero]
        rfl
      · rw [if_neg hz, Option.getD_some]
        have hmap : (qualifying_purchases purchases o pn cutoff).map
            (fun pr => pr.total_amount)
            = (qualifying_purchases purchases o pn cutoff).map
              (fun pr => pr.quantity_kg * pr.unit_price) :=
          List.map_congr_left (fun pr hpr => h pr (List.mem_of_mem_filter hpr))
        rw [hmap]
  · norm_num [weighted_avg_price, qualifying_purchases, C7purchases]

/-- C7 (witness): the general weighted-average statement discharged on the
three concrete purchases. -/
theorem C7_weighted_avg_witness :
    (∀ pr ∈ C7purchases, pr.total_amount = pr.quantity_kg * pr.unit_price) ∧
    (weighted_avg_price C7purchases "A" "a" 20241231).getD 0
      = ((qualifying_purchases C7purchases "A" "a" 20241231).map
          (fun pr => pr.quantity_kg * pr.unit_price)).sum
        / ((qualifying_purchases C7purchases "A" "a" 20241231).map
          (fun pr => pr.quantity_kg)).sum :=
  ⟨by norm_num [C7purchases, List.forall_mem_cons],
   C7_weighted_avg_price.1 C7purchases "A" "a" 20241231
     (by norm_num [C7purchases, List.forall_mem_cons])⟩

/-- C8 (counterexample): on a month holding one 1 kg sale of a product with a
100% single-bean recipe and a qualifying 100-per-kg purchase, the claim's
formula prescribes a bean cost of 120, but the report's bean-cost computation
raises `TypeError` — its helper call passes the database connection where the
query parameters belong. -/
theorem C8_bean_cost_counterexample :
    total_bean_cost C8db 202403 = Except.error report_call_type_error ∧
    spec_bean_cost C8db 202403 = 120 ∧
    total_bean_cost C8db 202403 ≠ Except.ok (spec_bean_cost C8db 202403) := by
  refine ⟨rfl, ?_, ?_⟩
  · norm_num [spec_bean_cost, C8db, emptyDB, legacy_recipe_rows, latest_batch,
      latest_effective_date, weighted_avg_price, qualifying_purchases, month_of,
      month_end, round3, roundHalfEven, ROASTING_LOSS_RATE]
  · intro hcontra
    rw [show total_bean_cost C8db 202403 = Except.error report_call_type_error from rfl]
      at hcontra
    exact Except.noConfusion hcontra

/-- C8 (amended): whenever any product sold in the reporting month has at
least one legacy recipe row, the bean-cost computation raises `TypeError`
before computing anything (and the recipe query it would have used carries no
date filter at all); no bean cost is ever produced. -/
theorem C8_bean_cost_amended :
    ∀ (db : DB) (m : Nat),
      ((month_sales db m).any (fun pq =>
        db.blend_recipes.any (fun r => r.product_name == pq.1))) = true →
      total_bean_cost db m = Except.error report_call_type_error :=
  fun db m h => total_bean_cost_go_err db m (month_sales db m) 0 h

/-- C8 (witness): the amended statement discharged on the concrete March 2024
database. -/
theorem C8_bean_cost_witness :
    ((month_sales C8db 202403).any (fun pq =>
      C8db.blend_recipes.any (fun r => r.product_name == pq.1))) = true ∧
    total_bean_cost C8db 202403 = Except.error report_call_type_error :=
  ⟨by decide, C8_bean_cost_amended C8db 202403 (by decide)⟩

/-- C9: for every database, month and sales quantity, the report's
variable-cost computation raises `TypeError` — the helper call duplicates the
connection argument (and its query names the nonexistent column
`variable_costs.effective_month`) — instead of returning quantity times the
applicable rate. -/
theorem C9_variable_cost_raises :
    ∀ (db : DB) (m : Nat) (sales_qty : ℚ),
      variable_cost_total db m sales_qty = Except.error report_call_type_error :=
  fun _ _ _ => rfl

/-- C10: every ledger row the sale-edit operation appends — the positive
restore rows of the reversal phase as well as the negative deduct rows of the
reapply phase — is dated with the new (edited) sale date. -/
theorem C10_sale_edit_tx_dates :
    ∀ (db : DB) (id : Nat) (nd : Date) (np : String) (nq nup : ℚ) (nc : String),
      ∃ ts, (sale_edit db id nd np nq nup nc).inventory_transactions
          = db.inventory_transactions ++ ts ∧
        ∀ t ∈ ts, t.transaction_date = nd := by
  intro db id nd np nq nup nc
  unfold sale_edit
  cases hfind : db.product_sales.find? (fun s => s.id == id) with
  | none => exact ⟨[], (List.append_nil _).symm, by simp⟩
  | some record =>
    dsimp only
    by_cases hg : (np != "" && decide (0 < nq) && decide (0 < nup)) = true
    · rw [if_pos hg]
      dsimp only
      obtain ⟨ts1, h1, ha1⟩ := phase_txs db
        (legacy_recipe_rows db.blend_recipes record.product_name record.sale_date)
        (green_bean_needed_for record.quantity_kg) 1 nd "sale_edit" (some id)
        ("판매 수정으로 인한 생두 복원 - " ++ record.product_name)
      obtain ⟨ts2, h2, ha2⟩ := phase_txs
        (if (legacy_recipe_rows db.blend_recipes record.product_name
              record.sale_date).isEmpty then db
         else apply_sale_lines db (latest_batch (legacy_recipe_rows db.blend_recipes
              record.product_name record.sale_date))
           (green_bean_needed_for record.quantity_kg) 1 nd "sale_edit" (some id)
           ("판매 수정으로 인한 생두 복원 - " ++ record.product_name))
        (legacy_recipe_rows
          (if (legacy_recipe_rows db.blend_recipes record.product_name
                record.sale_date).isEmpty then db
           else apply_sale_lines db (latest_batch (legacy_recipe_rows db.blend_recipes
                record.product_name record.sale_date))
             (green_bean_needed_for record.quantity_kg) 1 nd "sale_edit" (some id)
             ("판매 수정으로 인한 생두 복원 - " ++ record.product_name)).blend_recipes np nd)
        (green_bean_needed_for nq) (-1) nd "sale_edit" (some id)
        ("판매 수정 후 생두 차감 - " ++ np)
      refine ⟨ts1 ++ ts2, ?_, ?_⟩
      · rw [h2, h1, List.append_assoc]
      · intro t ht
        rcases List.mem_append.mp ht with h | h
        · exact ha1 t h
        · exact ha2 t h
    · rw [if_neg hg]
      exact ⟨[], (List.append_nil _).symm, by simp⟩

end Yellowknife
